import Mathlib

/-!
Shallow embedding of the `datum` ink! contracts
(`src/contracts/campaign_registry/lib.rs`, `src/contracts/impression_logger/lib.rs`,
`src/contracts/reward_vault/lib.rs`) and proofs about them.

Conventions of the embedding:
* `AccountId` and `Balance` are modelled as `Nat`; `Balance` arithmetic is the
  contracts' checked `u128` arithmetic (ink! builds with `overflow-checks = true`),
  so an operation whose intermediate result would not fit in `u128` aborts with an
  arithmetic-overflow panic, modelled as `Err.overflow`.  The `u64` campaign
  counter increment is likewise checked.
* Every `assert!`/`unwrap` panic aborts the enclosing transaction; panics are
  modelled as `Except.error` with the error taxonomy of the design document
  (`NotOwner`, `CampaignNotFound`, `CampaignNotActive`, `CampaignOutOfFunds`,
  `InsufficientDeposit`, `NothingToWithdraw`, `NotAuthorized`).
* ink! `Mapping` storage is modelled as a function into `Option`
  (`get` into `Option`, `insert` as pointwise update, `unwrap_or(0)` as `getD 0`).
* Outbound plain value transfers (`self.env().transfer(..)`) are recorded as
  events so that their targets, amounts and ordering are visible.
-/

namespace Datum

abbrev AccountId := Nat
abbrev Balance := Nat

/-- Upper bound of `u128`: checked `u128` arithmetic panics at this bound. -/
def U128 : Nat := 2 ^ 128

/-- Upper bound of `u64`: checked `u64` arithmetic panics at this bound. -/
def U64 : Nat := 2 ^ 64

/-- Failure outcomes of the contract calls, following the design document's
error taxonomy; `overflow` is a checked-arithmetic panic and `callFailed` a
cross-contract call whose callee does not resolve. -/
inductive Err where
  | insufficientDeposit
  | notOwner
  | campaignNotFound
  | campaignNotActive
  | campaignOutOfFunds
  | notAuthorized
  | nothingToWithdraw
  | overflow
  | callFailed
deriving DecidableEq, Repr

/-- Extract the success value of an `Except`, with a default for the error case. -/
def exD {α : Type} (r : Except Err α) (d : α) : α :=
  match r with
  | Except.ok a => a
  | Except.error _ => d

/-! ## RewardVault (`src/contracts/reward_vault/lib.rs`) -/

/-- The four-way split in parts-per-10000 (`u16` weights). -/
structure Split where
  user : Nat
  publisher : Nat
  staker : Nat
  treasury : Nat
deriving DecidableEq, Repr

/-- Storage of the `RewardVault` contract. -/
structure RewardVault where
  owner : AccountId
  split : Split
  treasury : AccountId
  balances : AccountId → Option Balance

/-- Embeds `RewardVault::new(treasury)`: the caller becomes `owner`, the split is fixed
to 5000/4000/500/500 and the balance mapping starts empty. -/
def RewardVault.new (caller treasury : AccountId) : RewardVault :=
  { owner := caller
    split := { user := 5000, publisher := 4000, staker := 500, treasury := 500 }
    treasury := treasury
    balances := fun _ => none }

/-- Embeds `RewardVault::credit(to, amount)`: read the balance (`unwrap_or(0)`), add
`amount` (checked `u128` addition), write it back. -/
def credit (s : RewardVault) (acct : AccountId) (amount : Balance) :
    Except Err RewardVault :=
  let bal := (s.balances acct).getD 0
  if bal + amount < U128 then
    Except.ok { s with
      balances := fun a => if a = acct then some (bal + amount) else s.balances a }
  else Except.error Err.overflow

/-- Embeds `RewardVault::deposit(user, publisher, staker)` with attached value
`transferred_value`: destructure the split, then credit
`value * weight / 10000` to user, publisher, staker and the configured
treasury account in that order.  Each `value * weight` is a checked `u128`
multiplication. -/
def deposit (s : RewardVault) (transferred_value : Balance)
    (user publisher staker : AccountId) : Except Err RewardVault :=
  let value := transferred_value
  let u_p := s.split.user
  let p_p := s.split.publisher
  let s_p := s.split.staker
  let t_p := s.split.treasury
  if value * u_p < U128 then
    match credit s user (value * u_p / 10000) with
    | Except.error e => Except.error e
    | Except.ok s1 =>
      if value * p_p < U128 then
        match credit s1 publisher (value * p_p / 10000) with
        | Except.error e => Except.error e
        | Except.ok s2 =>
          if value * s_p < U128 then
            match credit s2 staker (value * s_p / 10000) with
            | Except.error e => Except.error e
            | Except.ok s3 =>
              if value * t_p < U128 then
                credit s3 s3.treasury (value * t_p / 10000)
              else Except.error Err.overflow
          else Except.error Err.overflow
      else Except.error Err.overflow
  else Except.error Err.overflow

/-- Storage-write and value-transfer events of a vault call, in issue order. -/
inductive VaultEvent where
  | balanceZeroed (account : AccountId)
  | transferOut (acct : AccountId) (amount : Balance)
deriving DecidableEq, Repr

/-- Embeds `RewardVault::withdraw()`: read the caller's balance (`unwrap_or(0)`),
`assert!(amount > 0)` (else `NothingToWithdraw`), insert `0` into storage, then
issue the outbound transfer of `amount` — in that order, recorded as events. -/
def withdraw (caller : AccountId) (s : RewardVault) :
    Except Err (RewardVault × List VaultEvent) :=
  let amount := (s.balances caller).getD 0
  if amount > 0 then
    let s1 : RewardVault := { s with
      balances := fun a => if a = caller then some 0 else s.balances a }
    Except.ok (s1, [VaultEvent.balanceZeroed caller,
                    VaultEvent.transferOut caller amount])
  else Except.error Err.nothingToWithdraw

/-! ## CampaignRegistry (`src/contracts/campaign_registry/lib.rs`) -/

/-- A stored campaign record. -/
structure Campaign where
  advertiser : AccountId
  reward_vault : AccountId
  payout_per_impression : Balance
  deposit_remaining : Balance
  max_impressions : Nat
  approved : Bool
  killed : Bool
deriving DecidableEq, Repr

/-- Storage of the `CampaignRegistry` contract. -/
structure CampaignRegistry where
  owner : AccountId
  next_id : Nat
  campaigns : Nat → Option Campaign

/-- Embeds `CampaignRegistry::new()`: the caller becomes `owner`, ids start at `0`,
the campaign mapping starts empty. -/
def CampaignRegistry.new (caller : AccountId) : CampaignRegistry :=
  { owner := caller, next_id := 0, campaigns := fun _ => none }

/-- Embeds `CampaignRegistry::submit_campaign(payout_per_impression, max_impressions,
reward_vault)` with attached value `transferred_value`: compute
`required = payout_per_impression * (max_impressions as u128)` (checked
multiplication), `assert!(deposit >= required)` (else `InsufficientDeposit`),
allocate the next id (checked `u64` increment), store the new campaign with
`deposit_remaining = deposit`, `approved = false`, `killed = false`, return the
id. -/
def submit_campaign (caller : AccountId) (transferred_value : Balance)
    (s : CampaignRegistry) (payout_per_impression : Balance)
    (max_impressions : Nat) (reward_vault : AccountId) :
    Except Err (CampaignRegistry × Nat) :=
  if payout_per_impression * max_impressions < U128 then
    if payout_per_impression * max_impressions ≤ transferred_value then
      if s.next_id + 1 < U64 then
        Except.ok
          ({ s with
             next_id := s.next_id + 1
             campaigns := fun k =>
               if k = s.next_id then
                 some { advertiser := caller
                        reward_vault := reward_vault
                        payout_per_impression := payout_per_impression
                        deposit_remaining := transferred_value
                        max_impressions := max_impressions
                        approved := false
                        killed := false }
               else s.campaigns k }, s.next_id)
      else Except.error Err.overflow
    else Except.error Err.insufficientDeposit
  else Except.error Err.overflow

/-- Embeds `CampaignRegistry::approve(id)`: `only_owner()` (else `NotOwner`), `fetch(id)`
(`unwrap`, else `CampaignNotFound`), set `approved = true`, write back. -/
def approve (caller : AccountId) (s : CampaignRegistry) (id : Nat) :
    Except Err CampaignRegistry :=
  if caller = s.owner then
    match s.campaigns id with
    | none => Except.error Err.campaignNotFound
    | some c =>
      Except.ok { s with
        campaigns := fun k =>
          if k = id then some { c with approved := true } else s.campaigns k }
  else Except.error Err.notOwner

/-- A plain account-to-account value transfer issued by the registry. -/
structure TransferEvent where
  recipient : AccountId
  amount : Balance
deriving DecidableEq, Repr

/-- Embeds `CampaignRegistry::kill(id)`: `only_owner()` (else `NotOwner`), `fetch(id)`
(`unwrap`, else `CampaignNotFound`), set `killed = true` on the local copy and
persist it, THEN — if `deposit_remaining > 0` — issue the refund transfer to the
advertiser (its result swallowed by `.ok()`) and zero `deposit_remaining` on the
local copy only.  The zeroed copy is never written back to storage: the source
performs `self.campaigns.insert(id, &c)` before `c.deposit_remaining = 0`, so
that final assignment is a dead store. -/
def kill (caller : AccountId) (s : CampaignRegistry) (id : Nat) :
    Except Err (CampaignRegistry × List TransferEvent) :=
  if caller = s.owner then
    match s.campaigns id with
    | none => Except.error Err.campaignNotFound
    | some c =>
      let c1 := { c with killed := true }
      let s1 := { s with
        campaigns := fun k => if k = id then some c1 else s.campaigns k }
      if 0 < c1.deposit_remaining then
        Except.ok (s1, [{ recipient := c1.advertiser, amount := c1.deposit_remaining }])
      else Except.ok (s1, [])
  else Except.error Err.notOwner

/-! ## Cross-contract world

`record_impression` performs a value-bearing call into the campaign's configured
`reward_vault`, so its semantics lives on a world holding the registry together
with the vault instances addressable by `AccountId`. -/

/-- The on-chain world visible to the registry and logger: the registry instance
(at address `registryAddr`) and the deployed vaults. -/
structure World where
  registryAddr : AccountId
  registry : CampaignRegistry
  vaults : AccountId → Option RewardVault

/-- Embeds `CampaignRegistry::record_impression(id, user, publisher, staker)`:
`fetch(id)` (`unwrap`, else `CampaignNotFound`),
`assert!(approved && !killed)` (else `CampaignNotActive`),
`assert!(deposit_remaining >= payout_per_impression)` (else
`CampaignOutOfFunds`), invoke `deposit` on the campaign's `reward_vault` with
`payout_per_impression` attached, and only then decrement `deposit_remaining`
by `payout_per_impression` and write the campaign back. -/
def record_impression (w : World) (id : Nat)
    (user publisher staker : AccountId) : Except Err World :=
  match w.registry.campaigns id with
  | none => Except.error Err.campaignNotFound
  | some c =>
    if c.approved && !c.killed then
      if c.payout_per_impression ≤ c.deposit_remaining then
        match w.vaults c.reward_vault with
        | none => Except.error Err.callFailed
        | some v =>
          match deposit v c.payout_per_impression user publisher staker with
          | Except.error e => Except.error e
          | Except.ok v1 =>
            Except.ok { w with
              registry := { w.registry with
                campaigns := fun k =>
                  if k = id then
                    some { c with deposit_remaining :=
                                    c.deposit_remaining - c.payout_per_impression }
                  else w.registry.campaigns k }
              vaults := fun a =>
                if a = c.reward_vault then some v1 else w.vaults a }
      else Except.error Err.campaignOutOfFunds
    else Except.error Err.campaignNotActive

/-- Iterate `record_impression` on the same campaign and beneficiaries `n`
times, aborting on the first failure. -/
def recordN (id : Nat) (user publisher staker : AccountId) :
    Nat → World → Except Err World
  | 0, w => Except.ok w
  | n + 1, w =>
    match record_impression w id user publisher staker with
    | Except.error e => Except.error e
    | Except.ok w1 => recordN id user publisher staker n w1

/-! ## ImpressionLogger (`src/contracts/impression_logger/lib.rs`) -/

/-- Storage of the `ImpressionLogger` contract. -/
structure ImpressionLogger where
  owner : AccountId
  registry : AccountId
deriving DecidableEq, Repr

/-- Embeds `ImpressionLogger::new(registry)`. -/
def ImpressionLogger.new (caller registry : AccountId) : ImpressionLogger :=
  { owner := caller, registry := registry }

/-- One batched tuple `(campaign_id, user, publisher, staker)`. -/
abbrev Record := Nat × AccountId × AccountId × AccountId

/-- The logger's forwarded `record_impression` call: the cross-contract call is
addressed to `lg.registry`, so it reaches the registry exactly when that address
resolves to it, and fails otherwise. -/
def forward (lg : ImpressionLogger) (w : World) (r : Record) : Except Err World :=
  if lg.registry = w.registryAddr then
    record_impression w r.1 r.2.1 r.2.2.1 r.2.2.2
  else Except.error Err.callFailed

/-- The loop body of `batch_record`: forward one `record_impression` invocation
per tuple, in sequence order, aborting on the first failure. -/
def batchAux (lg : ImpressionLogger) (w : World) :
    List Record → Except Err World
  | [] => Except.ok w
  | r :: rest =>
    match forward lg w r with
    | Except.error e => Except.error e
    | Except.ok w1 => batchAux lg w1 rest

/-- Embeds `ImpressionLogger::batch_record(records)`:
`assert_eq!(caller, owner)` (else `NotAuthorized`), then forward one
`record_impression` per tuple in order. -/
def batch_record (caller : AccountId) (lg : ImpressionLogger) (w : World)
    (records : List Record) : Except Err World :=
  if caller = lg.owner then batchAux lg w records
  else Except.error Err.notAuthorized

/-- Modelled from the spec: the host execution environment (not part of this
repository) runs each public call as an atomic transaction — on success all
effects commit, on any failure the state is left exactly as it was before the
call began. -/
def runTx (w : World) (r : Except Err World) : World × Bool :=
  match r with
  | Except.ok w1 => (w1, true)
  | Except.error _ => (w, false)

/-- Does the registry hold an approved campaign at id `j`? -/
def approvedAt (s : CampaignRegistry) (j : Nat) : Bool :=
  match s.campaigns j with
  | none => false
  | some c => c.approved

/-! ## Concrete fixtures (Scenario A/C/F of the design document)

Registry deployed by owner `0`; advertiser `10` submits a campaign paying
`100` per impression for up to `10` impressions into the vault at address `5`,
attaching value `1000`; the owner approves campaign `0`.  The vault at address
`5` was deployed by `3` with treasury account `9`; the logger at address `6`
was deployed by aggregator `6` pointing at the registry's address `3`. -/

def reg0 : CampaignRegistry :=
  (exD (submit_campaign 10 1000 (CampaignRegistry.new 0) 100 10 5)
    (CampaignRegistry.new 0, 0)).1

def regApproved : CampaignRegistry := exD (approve 0 reg0 0) reg0

def vault0 : RewardVault := RewardVault.new 3 9

def worldPending : World :=
  { registryAddr := 3
    registry := reg0
    vaults := fun a => if a = 5 then some vault0 else none }

def world0 : World :=
  { registryAddr := 3
    registry := regApproved
    vaults := fun a => if a = 5 then some vault0 else none }

def logger0 : ImpressionLogger := ImpressionLogger.new 6 3

/-- The campaign stored by Scenario A's submission. -/
def campaign0 : Campaign :=
  { advertiser := 10, reward_vault := 5, payout_per_impression := 100
    deposit_remaining := 1000, max_impressions := 10
    approved := false, killed := false }

/-! ## Theorems -/

/-- Claim C1: after an owner `kill(id)` the stored campaign is supposed to have
`killed = true` and `deposit_remaining = 0`.  Evaluating the code at the
failing input (Scenario F's state: approved campaign `0` with
`deposit_remaining = 1000`, killed by the owner) shows the kill persists
`killed = true` but leaves the stored `deposit_remaining` at `1000`: the source
writes the record back to storage before zeroing `deposit_remaining` on a local
copy that is then dropped, so the invariant `killed ⇒ deposit_remaining == 0`
fails on the stored state. -/
theorem kill_does_not_zero_stored_deposit :
    (exD (kill 0 regApproved 0) (regApproved, [])).1.campaigns 0 =
      some { campaign0 with approved := true, killed := true } ∧
    ({ campaign0 with approved := true, killed := true }).deposit_remaining = 1000 := by
  constructor
  · decide
  · rfl

/-- Claim C2: a completed `kill(id)` changes only the `killed` flag of the
stored record (the stored `deposit_remaining` keeps its pre-call value, and all
other campaigns and registry fields are untouched), and whenever the stored
`deposit_remaining` is `d > 0` the call issues a refund transfer of `d` to the
advertiser — so a second owner `kill(id)` issues the same refund of `d` again. -/
theorem kill_frame_and_repeat_refund
    (caller : AccountId) (s : CampaignRegistry) (id : Nat) (c : Campaign)
    (s1 : CampaignRegistry) (evs : List TransferEvent)
    (hc : s.campaigns id = some c)
    (h : kill caller s id = Except.ok (s1, evs)) :
    s1.campaigns id = some { c with killed := true } ∧
    (∀ k, k ≠ id → s1.campaigns k = s.campaigns k) ∧
    s1.owner = s.owner ∧ s1.next_id = s.next_id ∧
    (0 < c.deposit_remaining →
      evs = [{ recipient := c.advertiser, amount := c.deposit_remaining }] ∧
      (exD (kill caller s1 id) (s1, [])).2 =
        [{ recipient := c.advertiser, amount := c.deposit_remaining }]) := by
  simp only [kill, hc] at h
  by_cases how : caller = s.owner
  · simp only [how, if_pos rfl] at h
    by_cases hd : 0 < c.deposit_remaining
    · simp only [hd, if_pos] at h
      cases h
      refine ⟨by simp, fun k hk => by simp [hk], rfl, rfl, fun _ => ⟨rfl, ?_⟩⟩
      simp [kill, exD, how, hd]
    · simp only [hd, if_neg] at h
      cases h
      refine ⟨by simp, fun k hk => by simp [hk], rfl, rfl, fun hd2 => absurd hd2 hd⟩
  · simp [how] at h

/-- Witness for `kill_frame_and_repeat_refund`: on Scenario F's concrete state,
the first owner kill refunds `1000` to advertiser `10` and a second kill of the
same campaign refunds `1000` once more. -/
theorem kill_frame_and_repeat_refund_witness :
    (exD (kill 0 regApproved 0) (regApproved, [])).2 =
      [{ recipient := 10, amount := 1000 }] ∧
    (exD (kill 0 (exD (kill 0 regApproved 0) (regApproved, [])).1 0)
        ((exD (kill 0 regApproved 0) (regApproved, [])).1, [])).2 =
      [{ recipient := 10, amount := 1000 }] := by
  have h := kill_frame_and_repeat_refund 0 regApproved 0
      { campaign0 with approved := true }
      (exD (kill 0 regApproved 0) (regApproved, [])).1
      (exD (kill 0 regApproved 0) (regApproved, [])).2
      (by decide) rfl
  exact ⟨(h.2.2.2.2 (by decide)).1, (h.2.2.2.2 (by decide)).2⟩

/-- Claim C7: `withdraw()` fails with `NothingToWithdraw` exactly when the
caller's stored balance is zero or absent; on success the emitted event trace
zeroes the caller's storage entry strictly before issuing the outbound transfer
of the full prior balance, the stored balance ends at zero (all other state
untouched), and an immediately repeated `withdraw` by the same caller fails
with `NothingToWithdraw`. -/
theorem withdraw_spec (caller : AccountId) (s : RewardVault) :
    (withdraw caller s = Except.error Err.nothingToWithdraw ↔
      (s.balances caller).getD 0 = 0) ∧
    (∀ s1 evs, withdraw caller s = Except.ok (s1, evs) →
      evs = [VaultEvent.balanceZeroed caller,
             VaultEvent.transferOut caller ((s.balances caller).getD 0)] ∧
      s1.balances caller = some 0 ∧
      (∀ a, a ≠ caller → s1.balances a = s.balances a) ∧
      s1.owner = s.owner ∧ s1.split = s.split ∧ s1.treasury = s.treasury ∧
      withdraw caller s1 = Except.error Err.nothingToWithdraw) := by
  constructor
  · constructor
    · intro h
      by_cases hb : 0 < (s.balances caller).getD 0
      · simp [withdraw, hb] at h
      · exact Nat.eq_zero_of_not_pos hb
    · intro h
      simp [withdraw, h]
  · intro s1 evs h
    by_cases hb : 0 < (s.balances caller).getD 0
    · simp only [withdraw, hb, if_pos] at h
      cases h
      refine ⟨rfl, by simp, fun a ha => by simp [ha], rfl, rfl, rfl, ?_⟩
      simp [withdraw]
    · simp [withdraw, hb] at h

/-- Witness for `withdraw_spec`: Scenario G concretely — withdrawing with a
zero balance fails, after a credit of `5` to account `1` a withdraw succeeds
zeroing the balance before a transfer of `5`, and a second immediate withdraw
fails. -/
theorem withdraw_spec_witness :
    withdraw 1 vault0 = Except.error Err.nothingToWithdraw ∧
    (exD (credit vault0 1 5) vault0).balances 1 = some 5 ∧
    (exD (withdraw 1 (exD (credit vault0 1 5) vault0))
        (exD (credit vault0 1 5) vault0, [])).2 =
      [VaultEvent.balanceZeroed 1, VaultEvent.transferOut 1 5] ∧
    withdraw 1
        (exD (withdraw 1 (exD (credit vault0 1 5) vault0))
          (exD (credit vault0 1 5) vault0, [])).1 =
      Except.error Err.nothingToWithdraw := by
  have h0 := (withdraw_spec 1 vault0).1.mpr (by decide)
  have h := (withdraw_spec 1 (exD (credit vault0 1 5) vault0)).2
      (exD (withdraw 1 (exD (credit vault0 1 5) vault0))
        (exD (credit vault0 1 5) vault0, [])).1
      (exD (withdraw 1 (exD (credit vault0 1 5) vault0))
        (exD (credit vault0 1 5) vault0, [])).2
      rfl
  exact ⟨h0, by decide, h.1, h.2.2.2.2.2.2⟩

/-- Claim C8: `submit_campaign` fails with `InsufficientDeposit` whenever the
attached value is below `payout_per_impression * max_impressions`; on success
it returns the current counter value as the id, increments the counter by one
(so ids strictly increase across calls and are never reused), and stores a new
campaign with `deposit_remaining` equal to the full attached value (excess
included), `approved = false` and `killed = false`, leaving every other
campaign and the owner untouched; two successive successful submissions return
strictly increasing ids. -/
theorem submit_campaign_spec (caller : AccountId) (v : Balance)
    (s : CampaignRegistry) (payout maxImp : Nat) (rv : AccountId) :
    (payout * maxImp < U128 → v < payout * maxImp →
      submit_campaign caller v s payout maxImp rv =
        Except.error Err.insufficientDeposit) ∧
    (∀ s1 id, submit_campaign caller v s payout maxImp rv = Except.ok (s1, id) →
      id = s.next_id ∧ s1.next_id = s.next_id + 1 ∧
      s1.campaigns id =
        some { advertiser := caller, reward_vault := rv
               payout_per_impression := payout, deposit_remaining := v
               max_impressions := maxImp, approved := false, killed := false } ∧
      (∀ k, k ≠ id → s1.campaigns k = s.campaigns k) ∧
      s1.owner = s.owner ∧
      (∀ caller2 v2 payout2 maxImp2 rv2 s2 id2,
        submit_campaign caller2 v2 s1 payout2 maxImp2 rv2 =
          Except.ok (s2, id2) → id < id2)) := by
  constructor
  · intro hfit hlt
    simp [submit_campaign, hfit, Nat.not_le_of_lt hlt]
  · intro s1 id h
    by_cases hfit : payout * maxImp < U128
    · by_cases hle : payout * maxImp ≤ v
      · by_cases hid : s.next_id + 1 < U64
        · simp only [submit_campaign, hfit, hle, hid, if_pos, if_true] at h
          cases h
          refine ⟨rfl, rfl, by simp, fun k hk => by simp [hk], rfl, ?_⟩
          intro caller2 v2 payout2 maxImp2 rv2 s2 id2 h2
          by_cases hfit2 : payout2 * maxImp2 < U128
          · by_cases hle2 : payout2 * maxImp2 ≤ v2
            · by_cases hid2 : s.next_id + 1 + 1 < U64
              · simp only [submit_campaign, hfit2, hle2, hid2, if_pos, if_true] at h2
                cases h2
                omega
              · simp [submit_campaign, hfit2, hle2, hid2] at h2
            · simp [submit_campaign, hfit2, hle2] at h2
          · simp [submit_campaign, hfit2] at h2
        · simp [submit_campaign, hfit, hle, hid] at h
      · simp [submit_campaign, hfit, hle] at h
    · simp [submit_campaign, hfit] at h

/-- Witness for `submit_campaign_spec`: Scenario A concretely — submitting with
payout `100`, `max_impressions = 10` and attached value `1000` yields id `0`,
a stored campaign with `deposit_remaining = 1000` and `approved = false`, and
an attached value of `999` fails with `InsufficientDeposit`. -/
theorem submit_campaign_spec_witness :
    (exD (submit_campaign 10 1000 (CampaignRegistry.new 0) 100 10 5)
        (CampaignRegistry.new 0, 0)).2 = 0 ∧
    reg0.campaigns 0 = some campaign0 ∧ reg0.next_id = 1 ∧
    submit_campaign 10 999 (CampaignRegistry.new 0) 100 10 5 =
      Except.error Err.insufficientDeposit := by
  have h := (submit_campaign_spec 10 1000 (CampaignRegistry.new 0) 100 10 5).2
      reg0
      (exD (submit_campaign 10 1000 (CampaignRegistry.new 0) 100 10 5)
        (CampaignRegistry.new 0, 0)).2
      rfl
  have h2 := (submit_campaign_spec 10 999 (CampaignRegistry.new 0) 100 10 5).1
      (by decide) (by decide)
  exact ⟨h.1, h.2.2.1, h.2.1, h2⟩

/-- Claim C10: the deposit-requirement product of `submit_campaign` is a plain
(checked) `u128` multiplication: whenever
`payout_per_impression * max_impressions` does not fit in `u128` the call
aborts with the arithmetic-overflow panic instead of `InsufficientDeposit`,
and whenever it fits (and the `u64` id counter does not saturate) no overflow
abort occurs and the deposit comparison is exact — the call fails with
`InsufficientDeposit` exactly when `v` is below the product and succeeds
exactly when `v` reaches it. -/
theorem submit_campaign_overflow_spec (caller : AccountId) (v : Balance)
    (s : CampaignRegistry) (payout maxImp : Nat) (rv : AccountId) :
    (U128 ≤ payout * maxImp →
      submit_campaign caller v s payout maxImp rv = Except.error Err.overflow) ∧
    (payout * maxImp < U128 → s.next_id + 1 < U64 →
      submit_campaign caller v s payout maxImp rv ≠ Except.error Err.overflow ∧
      (submit_campaign caller v s payout maxImp rv =
          Except.error Err.insufficientDeposit ↔ v < payout * maxImp) ∧
      ((submit_campaign caller v s payout maxImp rv).isOk = true ↔
        payout * maxImp ≤ v)) := by
  constructor
  · intro hbig
    simp [submit_campaign, Nat.not_lt_of_le hbig]
  · intro hfit hid
    by_cases hle : payout * maxImp ≤ v
    · simp [submit_campaign, hfit, hid, hle, Except.isOk, Except.toBool, Nat.not_lt_of_le hle]
    · simp [submit_campaign, hfit, hid, hle, Except.isOk, Except.toBool, Nat.lt_of_not_le hle]

/-- Witness for `submit_campaign_overflow_spec`: with
`payout = 2^127, max_impressions = 2` the product overflows `u128` and the call
panics with overflow even though the attached value is below the requirement,
while Scenario A's fitting product yields a successful call. -/
theorem submit_campaign_overflow_spec_witness :
    submit_campaign 10 0 (CampaignRegistry.new 0) (2 ^ 127) 2 5 =
      Except.error Err.overflow ∧
    (submit_campaign 10 1000 (CampaignRegistry.new 0) 100 10 5).isOk = true := by
  have h1 := (submit_campaign_overflow_spec 10 0 (CampaignRegistry.new 0)
      (2 ^ 127) 2 5).1 (by decide)
  have h2 := ((submit_campaign_overflow_spec 10 1000 (CampaignRegistry.new 0)
      100 10 5).2 (by decide) (by decide)).2.2.mpr (by decide)
  exact ⟨h1, h2⟩

/-- Helper: a successful `credit` stores the old balance (absent read as `0`)
plus the credited amount at the credited account and changes nothing else. -/
theorem credit_ok (s : RewardVault) (acct : AccountId) (amount : Balance)
    (s1 : RewardVault) (h : credit s acct amount = Except.ok s1) :
    s1 = { s with balances := fun a =>
      if a = acct then some ((s.balances acct).getD 0 + amount)
      else s.balances a } := by
  simp only [credit] at h
  split at h
  · cases h; rfl
  · exact Except.noConfusion h

/-- Helper: a successful `deposit` of value `v` with pairwise-distinct user,
publisher, staker and treasury accounts adds exactly `v * weight / 10000` to
each party's stored balance (the treasury credit going to the configured
treasury account), leaves every other balance and all configuration fields
unchanged. -/
theorem deposit_ok_balances
    (s : RewardVault) (v : Balance) (u p st : AccountId) (s1 : RewardVault)
    (hup : u ≠ p) (hust : u ≠ st) (hutr : u ≠ s.treasury)
    (hpst : p ≠ st) (hptr : p ≠ s.treasury) (hsttr : st ≠ s.treasury)
    (h : deposit s v u p st = Except.ok s1) :
    s1.owner = s.owner ∧ s1.split = s.split ∧ s1.treasury = s.treasury ∧
    s1.balances u = some ((s.balances u).getD 0 + v * s.split.user / 10000) ∧
    s1.balances p = some ((s.balances p).getD 0 + v * s.split.publisher / 10000) ∧
    s1.balances st = some ((s.balances st).getD 0 + v * s.split.staker / 10000) ∧
    s1.balances s.treasury =
      some ((s.balances s.treasury).getD 0 + v * s.split.treasury / 10000) ∧
    (∀ a, a ≠ u → a ≠ p → a ≠ st → a ≠ s.treasury →
      s1.balances a = s.balances a) := by
  simp only [deposit] at h
  split at h
  case isFalse => exact Except.noConfusion h
  case isTrue h1 =>
  cases hc1 : credit s u (v * s.split.user / 10000) with
  | error e => simp only [hc1] at h; exact Except.noConfusion h
  | ok t1 =>
  simp only [hc1] at h
  split at h
  case isFalse => exact Except.noConfusion h
  case isTrue h2 =>
  cases hc2 : credit t1 p (v * s.split.publisher / 10000) with
  | error e => simp only [hc2] at h; exact Except.noConfusion h
  | ok t2 =>
  simp only [hc2] at h
  split at h
  case isFalse => exact Except.noConfusion h
  case isTrue h3 =>
  cases hc3 : credit t2 st (v * s.split.staker / 10000) with
  | error e => simp only [hc3] at h; exact Except.noConfusion h
  | ok t3 =>
  simp only [hc3] at h
  split at h
  case isFalse => exact Except.noConfusion h
  case isTrue h4 =>
  have e1 := credit_ok s u (v * s.split.user / 10000) t1 hc1
  subst e1
  have e2 := credit_ok _ p (v * s.split.publisher / 10000) t2 hc2
  subst e2
  have e3 := credit_ok _ st (v * s.split.staker / 10000) t3 hc3
  subst e3
  have e4 := credit_ok _ _ _ s1 h
  subst e4
  refine ⟨rfl, rfl, rfl, ?_, ?_, ?_, ?_, ?_⟩
  · simp [hup, hust, hutr, Ne.symm hup, Ne.symm hust, Ne.symm hutr]
  · simp [hpst, hptr, Ne.symm hup, Ne.symm hpst, Ne.symm hptr]
  · simp [hsttr, Ne.symm hust, Ne.symm hpst, Ne.symm hsttr]
  · simp [Ne.symm hutr, Ne.symm hptr, Ne.symm hsttr, hutr, hptr, hsttr]
  · intro a ha1 ha2 ha3 ha4
    simp [ha1, ha2, ha3, ha4]

/-- Claim C5: a `deposit` of attached amount `v` credits exactly
`floor(v * w / 10000)` to each of the four parties, `w` being the party's
configured weight; user, publisher and staker balances use the supplied
identities while the treasury credit goes to the configured treasury account,
which the call never changes. -/
theorem deposit_splits_exactly
    (s : RewardVault) (v : Balance) (u p st : AccountId) (s1 : RewardVault)
    (hup : u ≠ p) (hust : u ≠ st) (hutr : u ≠ s.treasury)
    (hpst : p ≠ st) (hptr : p ≠ s.treasury) (hsttr : st ≠ s.treasury)
    (h : deposit s v u p st = Except.ok s1) :
    s1.balances u = some ((s.balances u).getD 0 + v * s.split.user / 10000) ∧
    s1.balances p = some ((s.balances p).getD 0 + v * s.split.publisher / 10000) ∧
    s1.balances st = some ((s.balances st).getD 0 + v * s.split.staker / 10000) ∧
    s1.balances s.treasury =
      some ((s.balances s.treasury).getD 0 + v * s.split.treasury / 10000) ∧
    s1.treasury = s.treasury := by
  have hb := deposit_ok_balances s v u p st s1 hup hust hutr hpst hptr hsttr h
  exact ⟨hb.2.2.2.1, hb.2.2.2.2.1, hb.2.2.2.2.2.1, hb.2.2.2.2.2.2.1, hb.2.2.1⟩

/-- Witness for `deposit_splits_exactly`: Scenario E concretely — with the
default split 5000/4000/500/500 and `v = 3`, user `1` and publisher `2` are
credited `1` each while staker `4` and treasury `9` are credited `0`. -/
theorem deposit_splits_exactly_witness :
    (exD (deposit vault0 3 1 2 4) vault0).balances 1 = some 1 ∧
    (exD (deposit vault0 3 1 2 4) vault0).balances 2 = some 1 ∧
    (exD (deposit vault0 3 1 2 4) vault0).balances 4 = some 0 ∧
    (exD (deposit vault0 3 1 2 4) vault0).balances 9 = some 0 := by
  have h := deposit_splits_exactly vault0 3 1 2 4
      (exD (deposit vault0 3 1 2 4) vault0)
      (by decide) (by decide) (by decide) (by decide) (by decide) (by decide) rfl
  exact ⟨h.1.trans (by decide), h.2.1.trans (by decide),
    h.2.2.1.trans (by decide), h.2.2.2.1.trans (by decide)⟩

/-- Helper: floor-division bound for the fixed 5000/4000/500/500 split — the
four floored shares sum to at most the whole. -/
theorem split_floor_sum_le (x : Nat) :
    x * 5000 / 10000 + x * 4000 / 10000 + x * 500 / 10000 + x * 500 / 10000 ≤ x := by
  omega

/-- Helper: the rounding shortfall of the fixed 5000/4000/500/500 split is at
most 3. -/
theorem split_floor_shortfall_le (x : Nat) :
    x - (x * 5000 / 10000 + x * 4000 / 10000 + x * 500 / 10000 + x * 500 / 10000) ≤ 3 := by
  omega

/-- Claim C6: for a vault constructed with the fixed split 5000/4000/500/500,
any successful deposit of `v` credits in total at most `v` across the four
(pairwise-distinct) parties, and the rounding shortfall is at most `3`. -/
theorem deposit_sum_bounded (ow tr u p st : AccountId) (v : Balance)
    (s1 : RewardVault)
    (hup : u ≠ p) (hust : u ≠ st) (hutr : u ≠ tr)
    (hpst : p ≠ st) (hptr : p ≠ tr) (hsttr : st ≠ tr)
    (h : deposit (RewardVault.new ow tr) v u p st = Except.ok s1) :
    (s1.balances u).getD 0 + (s1.balances p).getD 0 + (s1.balances st).getD 0 +
      (s1.balances tr).getD 0 ≤ v ∧
    v - ((s1.balances u).getD 0 + (s1.balances p).getD 0 +
      (s1.balances st).getD 0 + (s1.balances tr).getD 0) ≤ 3 := by
  have hb := deposit_ok_balances (RewardVault.new ow tr) v u p st s1
      hup hust hutr hpst hptr hsttr h
  simp only [RewardVault.new] at hb
  rw [hb.2.2.2.1, hb.2.2.2.2.1, hb.2.2.2.2.2.1, hb.2.2.2.2.2.2.1]
  simp only [Option.getD_some, Option.getD_none, Nat.zero_add]
  exact ⟨split_floor_sum_le v, split_floor_shortfall_le v⟩

/-- Witness for `deposit_sum_bounded`: with `v = 3` the total credited is `2`
(which is at most `3`) and the stranded dust is `1` (at most `3`). -/
theorem deposit_sum_bounded_witness :
    ((exD (deposit vault0 3 1 2 4) vault0).balances 1).getD 0 +
      ((exD (deposit vault0 3 1 2 4) vault0).balances 2).getD 0 +
      ((exD (deposit vault0 3 1 2 4) vault0).balances 4).getD 0 +
      ((exD (deposit vault0 3 1 2 4) vault0).balances 9).getD 0 ≤ 3 ∧
    3 - (((exD (deposit vault0 3 1 2 4) vault0).balances 1).getD 0 +
      ((exD (deposit vault0 3 1 2 4) vault0).balances 2).getD 0 +
      ((exD (deposit vault0 3 1 2 4) vault0).balances 4).getD 0 +
      ((exD (deposit vault0 3 1 2 4) vault0).balances 9).getD 0) ≤ 3 :=
  deposit_sum_bounded 3 9 1 2 4 3 (exD (deposit vault0 3 1 2 4) vault0)
    (by decide) (by decide) (by decide) (by decide) (by decide) (by decide) rfl

/-- Helper: inversion of a successful `record_impression` — the call succeeded
for a stored, active, sufficiently funded campaign whose configured vault
resolved and accepted the forwarded deposit, and the post-state is exactly the
registry with that campaign's `deposit_remaining` decremented by the payout
together with the updated vault. -/
theorem record_impression_ok_inv (w : World) (id : Nat) (u p st : AccountId)
    (w1 : World) (h : record_impression w id u p st = Except.ok w1) :
    ∃ c v v1, w.registry.campaigns id = some c ∧
      (c.approved && !c.killed) = true ∧
      c.payout_per_impression ≤ c.deposit_remaining ∧
      w.vaults c.reward_vault = some v ∧
      deposit v c.payout_per_impression u p st = Except.ok v1 ∧
      w1 = { registryAddr := w.registryAddr
             registry := { owner := w.registry.owner
                           next_id := w.registry.next_id
                           campaigns := fun k =>
                             if k = id then
                               some { c with deposit_remaining :=
                                 c.deposit_remaining - c.payout_per_impression }
                             else w.registry.campaigns k }
             vaults := fun a =>
               if a = c.reward_vault then some v1 else w.vaults a } := by
  cases hc : w.registry.campaigns id with
  | none =>
    simp only [record_impression, hc] at h
    exact Except.noConfusion h
  | some c =>
    simp only [record_impression, hc] at h
    split at h
    case isTrue hb =>
      split at h
      case isTrue hd =>
        cases hv : w.vaults c.reward_vault with
        | none => simp only [hv] at h; exact Except.noConfusion h
        | some v =>
          simp only [hv] at h
          cases hdep : deposit v c.payout_per_impression u p st with
          | error e => simp only [hdep] at h; exact Except.noConfusion h
          | ok v1 =>
            simp only [hdep] at h
            cases h
            exact ⟨c, v, v1, rfl, hb, hd, hv, hdep, rfl⟩
      case isFalse hd => exact Except.noConfusion h
    case isFalse hb => exact Except.noConfusion h

/-- Claim C3: `record_impression(id, user, publisher, staker)` fails with
`CampaignNotFound` for an unknown id, with `CampaignNotActive` unless the
campaign is approved and not killed, and with `CampaignOutOfFunds` unless
`deposit_remaining ≥ payout_per_impression`; on success it forwards exactly
`payout_per_impression` as the deposited value into the campaign's configured
vault and decrements the stored `deposit_remaining` by exactly
`payout_per_impression`, touching no other campaign or vault. -/
theorem record_impression_spec (w : World) (id : Nat) (u p st : AccountId) :
    (w.registry.campaigns id = none →
      record_impression w id u p st = Except.error Err.campaignNotFound) ∧
    (∀ c, w.registry.campaigns id = some c →
      (c.approved && !c.killed) = false →
      record_impression w id u p st = Except.error Err.campaignNotActive) ∧
    (∀ c, w.registry.campaigns id = some c →
      (c.approved && !c.killed) = true →
      c.deposit_remaining < c.payout_per_impression →
      record_impression w id u p st = Except.error Err.campaignOutOfFunds) ∧
    (∀ c v w1, w.registry.campaigns id = some c →
      w.vaults c.reward_vault = some v →
      record_impression w id u p st = Except.ok w1 →
      w1.registry.campaigns id =
        some { c with deposit_remaining :=
          c.deposit_remaining - c.payout_per_impression } ∧
      w1.vaults c.reward_vault =
        some (exD (deposit v c.payout_per_impression u p st) v) ∧
      (∀ k, k ≠ id → w1.registry.campaigns k = w.registry.campaigns k) ∧
      (∀ a, a ≠ c.reward_vault → w1.vaults a = w.vaults a) ∧
      w1.registry.owner = w.registry.owner ∧
      w1.registry.next_id = w.registry.next_id) := by
  refine ⟨?_, ?_, ?_, ?_⟩
  · intro h
    simp [record_impression, h]
  · intro c hc hb
    simp [record_impression, hc, hb]
  · intro c hc hb hlt
    simp [record_impression, hc, hb, Nat.not_le_of_lt hlt]
  · intro c v w1 hc hv h
    obtain ⟨c', v', v1, hc', hb', hd', hv', hdep', hw1⟩ :=
      record_impression_ok_inv w id u p st w1 h
    rw [hc] at hc'
    cases hc'
    rw [hv] at hv'
    cases hv'
    subst hw1
    refine ⟨by simp, ?_, fun k hk => by simp [hk], fun a ha => by simp [ha],
      rfl, rfl⟩
    simp [hdep', exD]

/-- Witness for `record_impression_spec`: Scenario C concretely — before
approval the call fails with `CampaignNotActive`; after approval ten successive
calls all succeed, each deducting `100`, ending with `deposit_remaining = 0`;
the eleventh call fails with `CampaignOutOfFunds`. -/
theorem record_impression_spec_witness :
    record_impression worldPending 0 1 2 4 = Except.error Err.campaignNotActive ∧
    (recordN 0 1 2 4 10 world0).isOk = true ∧
    (exD (recordN 0 1 2 4 10 world0) world0).registry.campaigns 0 =
      some { campaign0 with approved := true, deposit_remaining := 0 } ∧
    record_impression (exD (recordN 0 1 2 4 10 world0) world0) 0 1 2 4 =
      Except.error Err.campaignOutOfFunds := by
  refine ⟨?_, by decide, by decide, ?_⟩
  · exact (record_impression_spec worldPending 0 1 2 4).2.1 campaign0
      (by decide) (by decide)
  · exact (record_impression_spec (exD (recordN 0 1 2 4 10 world0) world0)
      0 1 2 4).2.2.1 { campaign0 with approved := true, deposit_remaining := 0 }
      (by decide) (by decide) (by decide)

/-- Helper: if the batch loop runs a prefix successfully and the next forwarded
call fails, the whole loop fails with that error. -/
theorem batchAux_append_error (lg : ImpressionLogger) (rs1 : List Record) :
    ∀ w w1 r rs2 e, batchAux lg w rs1 = Except.ok w1 →
      forward lg w1 r = Except.error e →
      batchAux lg w (rs1 ++ r :: rs2) = Except.error e := by
  induction rs1 with
  | nil =>
    intro w w1 r rs2 e h hf
    cases h
    simp [batchAux, hf]
  | cons r0 rs ih =>
    intro w w1 r rs2 e h hf
    simp only [batchAux, List.cons_append] at h ⊢
    cases hf0 : forward lg w r0 with
    | error e0 => simp only [hf0] at h; exact Except.noConfusion h
    | ok w2 =>
      simp only [hf0] at h ⊢
      exact ih w2 w1 r rs2 e h hf

/-- Claim C4: `batch_record(records)` fails with `NotAuthorized` unless the
caller is the logger's owner; otherwise it forwards one `record_impression`
invocation per tuple in sequence order, and under the host's transactional
semantics it is all-or-nothing — if any forwarded call fails (even after a
successfully processed prefix), the whole batch fails with that error and the
transaction commits nothing, while a fully successful batch commits all its
effects. -/
theorem batch_record_spec :
    (∀ caller lg w records, caller ≠ lg.owner →
      batch_record caller lg w records = Except.error Err.notAuthorized) ∧
    (∀ caller lg w r rest, caller = lg.owner →
      batch_record caller lg w (r :: rest) =
        (match forward lg w r with
         | Except.error e => Except.error e
         | Except.ok w1 => batchAux lg w1 rest)) ∧
    (∀ caller lg w rs1 r rs2 w1 e, caller = lg.owner →
      batchAux lg w rs1 = Except.ok w1 →
      forward lg w1 r = Except.error e →
      batch_record caller lg w (rs1 ++ r :: rs2) = Except.error e ∧
      runTx w (batch_record caller lg w (rs1 ++ r :: rs2)) = (w, false)) ∧
    (∀ caller lg w records e,
      batch_record caller lg w records = Except.error e →
      runTx w (batch_record caller lg w records) = (w, false)) ∧
    (∀ caller lg w records w1,
      batch_record caller lg w records = Except.ok w1 →
      runTx w (batch_record caller lg w records) = (w1, true)) := by
  refine ⟨?_, ?_, ?_, ?_, ?_⟩
  · intro caller lg w records h
    simp [batch_record, h]
  · intro caller lg w r rest h
    simp [batch_record, batchAux, h]
  · intro caller lg w rs1 r rs2 w1 e h hb hf
    have he := batchAux_append_error lg rs1 w w1 r rs2 e hb hf
    constructor
    · simp [batch_record, h, he]
    · simp [batch_record, h, he, runTx]
  · intro caller lg w records e h
    simp [runTx, h]
  · intro caller lg w records w1 h
    simp [runTx, h]

/-- Witness for `batch_record_spec`: a non-owner caller is rejected, and a
batch of one valid record followed by one referencing unknown campaign `99`
fails with `CampaignNotFound` with the transaction leaving the world unchanged
— the first record's already-applied effects are not committed. -/
theorem batch_record_spec_witness :
    batch_record 7 logger0 world0 [(0, 1, 2, 4)] =
      Except.error Err.notAuthorized ∧
    batch_record 6 logger0 world0 [(0, 1, 2, 4), (99, 1, 2, 4)] =
      Except.error Err.campaignNotFound ∧
    runTx world0 (batch_record 6 logger0 world0 [(0, 1, 2, 4), (99, 1, 2, 4)]) =
      (world0, false) := by
  have h1 := batch_record_spec.1 7 logger0 world0 [(0, 1, 2, 4)] (by decide)
  have h3 := batch_record_spec.2.2.1 6 logger0 world0 [(0, 1, 2, 4)]
      (99, 1, 2, 4) [] (exD (batchAux logger0 world0 [(0, 1, 2, 4)]) world0)
      Err.campaignNotFound rfl rfl rfl
  exact ⟨h1, h3.1, h3.2⟩

/-- Claim C9: `approve(id)` fails with `NotOwner` for any non-owner caller and
with `CampaignNotFound` for an unknown id; on success it sets `approved = true`
touching nothing else, a second `approve` of the same id returns the identical
state, and — for any registry whose campaigns all live below the id counter —
once a campaign is approved, no registry operation (`submit_campaign`,
`approve`, `record_impression`, `kill`) ever resets its `approved` flag to
false. -/
theorem approve_spec (caller : AccountId) (s : CampaignRegistry) (id : Nat) :
    (caller ≠ s.owner → approve caller s id = Except.error Err.notOwner) ∧
    (caller = s.owner → s.campaigns id = none →
      approve caller s id = Except.error Err.campaignNotFound) ∧
    (∀ c s1, s.campaigns id = some c → approve caller s id = Except.ok s1 →
      s1.campaigns id = some { c with approved := true } ∧
      (∀ k, k ≠ id → s1.campaigns k = s.campaigns k) ∧
      s1.owner = s.owner ∧ s1.next_id = s.next_id ∧
      approve caller s1 id = Except.ok s1) ∧
    (∀ j, (∀ k, s.next_id ≤ k → s.campaigns k = none) → approvedAt s j = true →
      (∀ caller2 v payout maxImp rv s1 id1,
        submit_campaign caller2 v s payout maxImp rv = Except.ok (s1, id1) →
        approvedAt s1 j = true) ∧
      (∀ caller2 id2 s1, approve caller2 s id2 = Except.ok s1 →
        approvedAt s1 j = true) ∧
      (∀ w id2 u p st w1, w.registry = s →
        record_impression w id2 u p st = Except.ok w1 →
        approvedAt w1.registry j = true) ∧
      (∀ caller2 id2 s1 evs, kill caller2 s id2 = Except.ok (s1, evs) →
        approvedAt s1 j = true)) := by
  refine ⟨?_, ?_, ?_, ?_⟩
  · intro h
    simp [approve, h]
  · intro h1 h2
    simp [approve, h1, h2]
  · intro c s1 hc h
    by_cases how : caller = s.owner
    · simp only [approve, how, hc, if_pos] at h
      cases h
      refine ⟨by simp, fun k hk => by simp [hk], rfl, rfl, ?_⟩
      have hfun :
          (fun k => if k = id then some { c with approved := true }
            else if k = id then some { c with approved := true }
            else s.campaigns k) =
          (fun k => if k = id then some { c with approved := true }
            else s.campaigns k) := by
        funext k
        by_cases hk : k = id <;> simp [hk]
      simp [approve, how, hfun]
    · simp [approve, how] at h
  · intro j hinv happ
    cases hj : s.campaigns j with
    | none => simp [approvedAt, hj] at happ
    | some c =>
    have hcapp : c.approved = true := by
      simpa [approvedAt, hj] using happ
    have hne : j ≠ s.next_id := by
      intro he
      have := hinv j (he ▸ Nat.le_refl _)
      rw [this] at hj
      exact Option.noConfusion hj
    refine ⟨?_, ?_, ?_, ?_⟩
    · intro caller2 v payout maxImp rv s1 id1 h2
      by_cases hf : payout * maxImp < U128
      · by_cases hle : payout * maxImp ≤ v
        · by_cases hid : s.next_id + 1 < U64
          · simp only [submit_campaign, hf, hle, hid, if_pos, if_true] at h2
            cases h2
            simp [approvedAt, hne, hj, hcapp]
          · simp [submit_campaign, hf, hle, hid] at h2
        · simp [submit_campaign, hf, hle] at h2
      · simp [submit_campaign, hf] at h2
    · intro caller2 id2 s1 h2
      by_cases ho : caller2 = s.owner
      · cases hc2 : s.campaigns id2 with
        | none => simp [approve, ho, hc2] at h2
        | some c2 =>
          simp only [approve, ho, hc2, if_pos] at h2
          cases h2
          by_cases hjd : j = id2
          · subst hjd
            rw [hj] at hc2
            cases hc2
            simp [approvedAt]
          · simp [approvedAt, hjd, hj, hcapp]
      · simp [approve, ho] at h2
    · intro w id2 u p st w1 hw h2
      obtain ⟨c2, v2, v1, hc2, hb2, hd2, hv2, hdep2, hw1⟩ :=
        record_impression_ok_inv w id2 u p st w1 h2
      rw [hw] at hc2
      subst hw1
      by_cases hjd : j = id2
      · subst hjd
        rw [hj] at hc2
        cases hc2
        simp [approvedAt, hw, hcapp]
      · simp [approvedAt, hw, hjd, hj, hcapp]
    · intro caller2 id2 s1 evs h2
      by_cases ho : caller2 = s.owner
      · cases hc2 : s.campaigns id2 with
        | none => simp [kill, ho, hc2] at h2
        | some c2 =>
          by_cases hd : 0 < c2.deposit_remaining
          · simp only [kill, ho, hc2, hd, if_pos, if_true] at h2
            cases h2
            by_cases hjd : j = id2
            · subst hjd
              rw [hj] at hc2
              cases hc2
              simp [approvedAt, hcapp]
            · simp [approvedAt, hjd, hj, hcapp]
          · simp only [kill, ho, hc2, hd, if_pos, if_false, if_neg] at h2
            cases h2
            by_cases hjd : j = id2
            · subst hjd
              rw [hj] at hc2
              cases hc2
              simp [approvedAt, hcapp]
            · simp [approvedAt, hjd, hj, hcapp]
      · simp [kill, ho] at h2

/-- Helper: the approved Scenario A registry stores campaigns only below its
id counter. -/
theorem regApproved_ids_below_counter :
    ∀ k, regApproved.next_id ≤ k → regApproved.campaigns k = none := by
  intro k hk
  have h1 : regApproved.next_id = 1 := by decide
  rw [h1] at hk
  have hne : k ≠ 0 := by omega
  simp [regApproved, reg0, approve, exD, submit_campaign, CampaignRegistry.new,
    U128, U64, hne]

/-- Witness for `approve_spec`: on Scenario B's state — a non-owner `approve`
fails with `NotOwner`, the owner's `approve(0)` stores `approved = true`, a
second `approve(0)` returns the identical state, and killing the approved
campaign leaves it approved. -/
theorem approve_spec_witness :
    approve 7 reg0 0 = Except.error Err.notOwner ∧
    regApproved.campaigns 0 = some { campaign0 with approved := true } ∧
    approve 0 regApproved 0 = Except.ok regApproved ∧
    approvedAt (exD (kill 0 regApproved 0) (regApproved, [])).1 0 = true := by
  have h1 := (approve_spec 7 reg0 0).1 (by decide)
  have h3 := (approve_spec 0 reg0 0).2.2.1 campaign0 regApproved (by decide) rfl
  have h4 := ((approve_spec 0 regApproved 0).2.2.2 0
      regApproved_ids_below_counter (by decide)).2.2.2
      0 0 (exD (kill 0 regApproved 0) (regApproved, [])).1
      (exD (kill 0 regApproved 0) (regApproved, [])).2 rfl
  exact ⟨h1, h3.1, h3.2.2.2.2, h4⟩

end Datum
